import Mathlib

/-!
# Verification of the multilingual summarizer pipeline (`src/main.py`)

Shallow embedding of the program's pure logic:

* the summary length-bound arithmetic of `summarize_text`
  (`target_len` / `max_len` / `min_len`),
* the loader `load_text`, the detector `detect_language`, the empty-input
  short circuit of `summarize_text`, and the CLI driver `main`,

with external collaborators (filesystem, langdetect, tokenizer/model) passed
in as oracles.

Machine arithmetic notes.  Python integers are unbounded, so token counts and
compression levels are `Nat`.  The line `int(input_len * compression / 100)`
divides exact integers with float (IEEE-754 double) true division and then
truncates; for `input_len * compression < 2^46 * 100` the correctly rounded
quotient truncates to exactly the integer quotient (the exact value is at
distance ≥ 1/100 from any other integer, which exceeds the half-ulp error
bound below 2^46), so the embedding uses `Nat` division for that line.  The
line `int(max_len * 0.7)` is different: `0.7` is not a double, and the
rounding of the product visibly changes the result at small, reachable values
of `max_len` (e.g. `int(90 * 0.7) = 62`, not `63`).  That computation is
therefore embedded exactly, as round-to-nearest-even of
`max_len * 3152519739159347 / 2^52` followed by truncation
(`3152519739159347 / 2^52` is the double nearest `0.7`).
-/

namespace VibeSummarizer

/-- The mantissa of the IEEE-754 double nearest `0.7`: that double is
`3152519739159347 / 2 ^ 52`. -/
def double07Num : Nat := 3152519739159347

/-- `2 ^ 52`, the denominator of the double nearest `0.7`. -/
def twoPow52 : Nat := 4503599627370496

/-- Fuelled floor of the base-2 logarithm (`0` on inputs `≤ 1`).  64 units of
fuel are enough for every number below `2 ^ 64`. -/
def floorLog2Aux : Nat → Nat → Nat
  | 0, _ => 0
  | fuel + 1, n => if n ≤ 1 then 0 else floorLog2Aux fuel (n / 2) + 1

/-- `floorLog2 n = ⌊log₂ n⌋` for `0 < n < 2 ^ 64` (and `0` at `0`). -/
def floorLog2 (n : Nat) : Nat := floorLog2Aux 64 n

/-- Exact model of Python `int(m * 0.7)` for a nonnegative integer `m`:
the exact product `m * (3152519739159347 / 2 ^ 52)` is rounded to the IEEE
double grid (round-to-nearest, ties-to-even), then truncated toward zero.
The grid spacing at magnitude `[2 ^ k, 2 ^ (k+1))` is `2 ^ (k - 52)`, so the
scaled product is rounded to the nearest multiple of `2 ^ (k - 52)`.
Faithful to IEEE-754 binary64 multiplication for every `m ≤ 2 ^ 52` whose
product stays in range (a single correctly rounded operation). -/
def pyIntMulPoint7 (m : Nat) : Nat :=
  let prod := m * double07Num
  let kv := floorLog2 prod - 52
  let grid := 2 ^ kv
  let q := prod / grid
  let r := prod % grid
  let rounded := if grid < 2 * r then q + 1
    else if 2 * r < grid then q
    else if q % 2 = 0 then q else q + 1
  rounded * grid / twoPow52

/-- `target_len = max(30, int(input_len * compression / 100))`
(src/main.py line 68). -/
def target_len (input_len compression : Nat) : Nat :=
  max 30 (input_len * compression / 100)

/-- `max_len = min(512, target_len)` (src/main.py line 69). -/
def max_len (input_len compression : Nat) : Nat :=
  min 512 (target_len input_len compression)

/-- `min_len = max(20, int(max_len * 0.7))` (src/main.py line 70), with the
float product modelled exactly by `pyIntMulPoint7`. -/
def min_len (input_len compression : Nat) : Nat :=
  max 20 (pyIntMulPoint7 (max_len input_len compression))

/-- The values of `max_len` at which the double product `max_len * 0.7`
falls strictly below the exact product `7 * max_len / 10` by enough to lose
one unit under truncation. -/
def floatLowTens : List Nat := [90, 170, 180, 330, 340, 350, 360]

set_option maxRecDepth 8000 in
/-- On the whole reachable range `30 ≤ m ≤ 512` of `max_len`, the float
model agrees with exact truncated `7 * m / 10` except at the seven listed
multiples of ten, where it is one less. -/
lemma pyIntMulPoint7_char : ∀ m : Nat, m < 513 → 30 ≤ m →
    pyIntMulPoint7 m = 7 * m / 10 - (if m ∈ floatLowTens then 1 else 0) := by
  decide

/-- The codepoints of Python's `str.isspace`; `str.strip()` with no argument
removes exactly these characters from both ends, so `text.strip()` is empty
iff every character satisfies this predicate. -/
def pyIsSpace (c : Char) : Bool :=
  let n := c.toNat
  (9 ≤ n && n ≤ 13) || (28 ≤ n && n ≤ 31) || n = 32 || n = 133 || n = 160 ||
    n = 5760 || (8192 ≤ n && n ≤ 8202) || n = 8232 || n = 8233 || n = 8239 ||
    n = 8287 || n = 12288

/-- Python `not text.strip()`: the text is empty or whitespace-only. -/
def pyStripEmpty (s : String) : Bool := s.data.all pyIsSpace

/-- Python `str.lower()`, restricted to the ASCII case mapping (file paths
and language codes in this program are ASCII). -/
def pyLower (s : String) : String := String.mk (s.data.map Char.toLower)

/-- Python `str.endswith(suff)`. -/
def strEndsWith (s suff : String) : Bool := List.isSuffixOf suff.data s.data

/-- `SUPPORTED_LANGS` (src/main.py line 10). -/
def SUPPORTED_LANGS : List String := ["en", "ru", "de"]

/-- `LANG_MAP` (src/main.py lines 13-17). -/
def LANG_MAP : List (String × String) :=
  [("en", "english"), ("ru", "russian"), ("de", "german")]

/-- The two failure modes of `load_text`: `FileNotFoundError` (with the
offending path) and the `ValueError` for an unrecognized extension. -/
inductive LoadError where
  | fileNotFound (path : String)
  | unsupportedFormat
  deriving DecidableEq

/-- Oracle for the filesystem: whether a path is a regular file
(`os.path.isfile`), the file's content decoded from UTF-8 byte-for-byte —
exactly the characters whose encoding is on disk, with `'\r'` and `'\n'`
as stored, before any text-mode processing — and the per-page
`page.extract_text()` results of `pdfplumber` (`none` models a page with no
extractable text, Python `None`). -/
structure FileSystem where
  isFile : String → Bool
  readBytes : String → String
  pdfPages : String → List (Option String)

/-- One left-to-right pass of Python's universal-newline translation:
each `"\r\n"` pair and each lone `'\r'` becomes `'\n'`; every other
character is kept.  Fuelled so that it is structurally recursive; fuel equal
to the list length is always enough since every step consumes at least one
character. -/
def univNewlinesAux : Nat → List Char → List Char
  | 0, l => l
  | _ + 1, [] => []
  | fuel + 1, c :: rest =>
    if c = '\r' then
      '\n' :: (match rest with
        | '\n' :: rest' => univNewlinesAux fuel rest'
        | _ => univNewlinesAux fuel rest)
    else c :: univNewlinesAux fuel rest

/-- Python `open(path, 'r', encoding='utf-8').read()`: the file's decoded
content with universal-newline translation applied (text mode with
`newline=None` turns `"\r\n"` and lone `"\r"` into `"\n"`). -/
def pyReadText (s : String) : String :=
  String.mk (univNewlinesAux s.data.length s.data)

/-- The PDF branch of `load_text`: `text += page.extract_text() or ""` over
all pages in order. -/
def extractPdf (pages : List (Option String)) : String :=
  pages.foldl (fun acc p => acc ++ p.getD "") ""

/-- `load_text` (src/main.py lines 19-34): reject a nonexistent path first,
then dispatch on the lowercased path's suffix, rejecting anything that is
neither `.txt` nor `.pdf`.  The `.txt` branch reads in text mode
(`open(file_path, 'r', encoding='utf-8')`), so the raw content passes
through universal-newline translation. -/
def load_text (fs : FileSystem) (path : String) : Except LoadError String :=
  if fs.isFile path = false then .error (.fileNotFound path)
  else if strEndsWith (pyLower path) ".txt" then
    .ok (pyReadText (fs.readBytes path))
  else if strEndsWith (pyLower path) ".pdf" then .ok (extractPdf (fs.pdfPages path))
  else .error .unsupportedFormat

/-- `detect_language` (src/main.py lines 36-46).  The langdetect call is an
oracle `d`; `d text = none` models the call raising (the bare `except:`
catches every exception and falls back to `'en'`), and a detected code
outside `SUPPORTED_LANGS` is replaced by `'en'` as well. -/
def detect_language (d : String → Option String) (text : String) : String :=
  let lang := (d text).getD "en"
  if lang ∈ SUPPORTED_LANGS then lang else "en"

/-- Oracles for the transformers stack: `tokenize` is
`tokenizer.tokenize` (no truncation), and `generate` packages
`tokenizer(...)` with truncation/padding to the input budget,
`model.generate` (beam search, 4 beams, early stopping, length penalty 1.0,
bounded by the given `min_length`/`max_length`), and
`tokenizer.decode(..., skip_special_tokens=True)`; its arguments are the raw
text, `max_input_length`, `min_len` and `max_len`. -/
structure ModelEnv where
  tokenize : String → List String
  generate : String → Nat → Nat → Nat → String

/-- Result of `summarize_text`, together with whether the model/tokenizer
were loaded and invoked (they are loaded only after the empty-text check). -/
structure SummaryResult where
  output : String
  modelInvoked : Bool

/-- `summarize_text` (src/main.py lines 48-85).  On empty or whitespace-only
text it returns the literal `"Пустой текст"` before any model or tokenizer
is loaded; otherwise the length bounds are derived from the untruncated
token count of the raw text and generation runs within them.  `lang` is
accepted but unused, as in the source. -/
def summarize_text (env : ModelEnv) (text lang : String)
    (compression max_input_length : Nat) : SummaryResult :=
  if pyStripEmpty text then ⟨"Пустой текст", false⟩
  else
    let input_len := (env.tokenize text).length
    ⟨env.generate text max_input_length
      (min_len input_len compression) (max_len input_len compression), true⟩

/-- The `choices` enumeration of `--language` (src/main.py line 90). -/
def languageChoices : List String := ["auto", "en", "ru", "de"]

/-- The `choices` enumeration of `--compression` (src/main.py line 93). -/
def compressionChoices : List Nat := [20, 30, 50]

/-- Parsed command-line arguments, with `language` and `compression` as the
raw user-supplied values (argparse validates them against the `choices`
enumerations before `main`'s body runs). -/
structure Args where
  input : String
  language : String
  compression : Nat
  output : Option String

/-- Observable outcome of one driver run: the process exit code, the summary
printed to stdout (if any), the file written by the optional persist stage as
a `(path, content)` pair — `open(path, "w")` truncates, so the content shown
is the file's full final content regardless of what was there before —
whether the save-confirmation line was printed, and whether an error message
was printed (the `❌`-prefixed lines before each `sys.exit(1)`, or argparse's
usage/error text on stderr before its exit with status 2). -/
structure MainResult where
  exitCode : Nat
  summaryPrinted : Option String
  written : Option (String × String)
  confirmPrinted : Bool
  errorPrinted : Bool

/-- `main` (src/main.py lines 87-136).  Argparse rejection of a value outside
a `choices` enumeration is modelled from the argument parser's documented
behavior: the process exits with status 2 before the body runs.  The body
exits 1 on load failure, on empty/whitespace-only text, and on a resolved
language outside `SUPPORTED_LANGS`; otherwise it prints the summary, writes
it verbatim to the output path when one was supplied, and exits 0. -/
def main (fs : FileSystem) (d : String → Option String) (env : ModelEnv)
    (a : Args) : MainResult :=
  if a.language ∈ languageChoices ∧ a.compression ∈ compressionChoices then
    match load_text fs a.input with
    | .error _ => ⟨1, none, none, false, true⟩
    | .ok text =>
      if pyStripEmpty text then ⟨1, none, none, false, true⟩
      else
        let lang := if a.language = "auto" then detect_language d text else a.language
        if lang ∈ SUPPORTED_LANGS then
          let summary := (summarize_text env text lang a.compression 1024).output
          match a.output with
          | some p => ⟨0, some summary, some (p, summary), true, false⟩
          | none => ⟨0, some summary, none, false, false⟩
        else ⟨1, none, none, false, true⟩
  else ⟨2, none, none, false, true⟩

/-! ## Helper lemmas about the length-bound arithmetic -/

lemma max_len_bounds (n c : Nat) : 30 ≤ max_len n c ∧ max_len n c ≤ 512 := by
  unfold max_len target_len
  omega

lemma mem_floatLowTens {m : Nat} (h : m ∈ floatLowTens) :
    m = 90 ∨ m = 170 ∨ m = 180 ∨ m = 330 ∨ m = 340 ∨ m = 350 ∨ m = 360 := by
  simpa [floatLowTens] using h

lemma min_len_char (n c : Nat) :
    min_len n c =
      7 * max_len n c / 10 - (if max_len n c ∈ floatLowTens then 1 else 0) ∧
    21 ≤ min_len n c := by
  obtain ⟨h1, h2⟩ := max_len_bounds n c
  have hc := pyIntMulPoint7_char (max_len n c) (by omega) h1
  unfold min_len
  rw [hc]
  by_cases hm : max_len n c ∈ floatLowTens
  · have := mem_floatLowTens hm
    rw [if_pos hm]
    omega
  · rw [if_neg hm]
    omega

lemma pyTrunc_mono {m m' : Nat} (h30 : 30 ≤ m) (hmm : m ≤ m') (h512 : m' ≤ 512) :
    7 * m / 10 - (if m ∈ floatLowTens then 1 else 0) ≤
      7 * m' / 10 - (if m' ∈ floatLowTens then 1 else 0) := by
  by_cases hm : m ∈ floatLowTens <;> by_cases hm' : m' ∈ floatLowTens
  · rw [if_pos hm, if_pos hm']
    omega
  · rw [if_pos hm, if_neg hm']
    omega
  · have hb := mem_floatLowTens hm'
    have hne : m ≠ m' := fun h => hm (h ▸ hm')
    rw [if_neg hm, if_pos hm']
    omega
  · rw [if_neg hm, if_neg hm']
    omega

lemma max_len_mono {n n' c c' : Nat} (hn : n ≤ n') (hc : c ≤ c') :
    max_len n c ≤ max_len n' c' := by
  have h1 : n * c ≤ n' * c' := Nat.mul_le_mul hn hc
  have h2 : n * c / 100 ≤ n' * c' / 100 := Nat.div_le_div_right h1
  unfold max_len target_len
  omega

lemma min_len_mono {n n' c c' : Nat} (hn : n ≤ n') (hc : c ≤ c') :
    min_len n c ≤ min_len n' c' := by
  rw [(min_len_char n c).1, (min_len_char n' c').1]
  exact pyTrunc_mono (max_len_bounds n c).1 (max_len_mono hn hc)
    (max_len_bounds n' c').2

lemma floor_mul07 (M : ℕ) :
    ⌊(0.7 : ℚ) * (M : ℚ)⌋ = ((7 * M / 10 : ℕ) : ℤ) := by
  have hx : (0.7 : ℚ) * (M : ℚ) = ((7 * M : ℕ) : ℚ) / ((10 : ℕ) : ℚ) := by
    push_cast
    ring
  have h0 : (0 : ℚ) ≤ (0.7 : ℚ) * (M : ℚ) := by positivity
  rw [← Int.natCast_floor_eq_floor h0]
  norm_cast
  rw [hx, Nat.floor_div_nat, Nat.floor_natCast]

/-! ## Claims about the length-bound arithmetic -/

/-- The length-bound formulas as the spec sentence for claim C1 states them,
with round-to-nearest in place of the code's truncations.  These definitions
follow the spec's words and exist only to be compared with the code's
`target_len` / `max_len` / `min_len`. -/
def target_len_round (n c : Nat) : ℤ := max 30 (round ((n * c : ℚ) / 100))

/-- Spec-worded `max_len` for claim C1; see `target_len_round`. -/
def max_len_round (n c : Nat) : ℤ := min 512 (target_len_round n c)

/-- Spec-worded `min_len` for claim C1; see `target_len_round`. -/
def min_len_round (n c : Nat) : ℤ :=
  max 20 (round ((0.7 : ℚ) * (max_len_round n c : ℚ)))

/-- C1 (counterexample): at 109 input tokens and compression 30 the code's
`max_len` is `min(512, max(30, int(32.7))) = 32`, while the claimed
round-to-nearest formula yields 33. -/
theorem C1_counterexample :
    (max_len 109 30 : ℤ) = 32 ∧ max_len_round 109 30 = 33 ∧
    (max_len 109 30 : ℤ) ≠ max_len_round 109 30 := by
  have h1 : max_len 109 30 = 32 := by decide
  have h2 : max_len_round 109 30 = 33 := by
    unfold max_len_round target_len_round
    have : round (((109 : ℕ) * (30 : ℕ) : ℚ) / 100) = 33 := by
      rw [round_eq]
      norm_num
    rw [this]
    decide
  refine ⟨by rw [h1]; norm_num, h2, ?_⟩
  rw [h1, h2]
  norm_num

/-- C1 (amended): the bounds use truncation, not rounding to nearest:
`target_len = max(30, ⌊input_len * compression / 100⌋)`,
`max_len = min(512, target_len)`, and `min_len = max(20, t)` where `t` is
the truncated IEEE double product `max_len * 0.7`; that truncation equals
`⌊0.7 * max_len⌋` except at `max_len ∈ {90, 170, 180, 330, 340, 350, 360}`,
where the double product falls just below the exact multiple of ten times
seven and `t` is one less. -/
theorem C1_truncation_formulas (n c : Nat) :
    target_len n c = max 30 ⌊(n * c : ℚ) / 100⌋₊ ∧
    max_len n c = min 512 (target_len n c) ∧
    (min_len n c : ℤ) =
      max 20 (⌊(0.7 : ℚ) * (max_len n c : ℚ)⌋ -
        (if max_len n c ∈ floatLowTens then 1 else 0)) := by
  refine ⟨?_, rfl, ?_⟩
  · have hcast : ((n * c : ℕ) : ℚ) = (n : ℚ) * c := by push_cast; ring
    rw [← hcast, Nat.floor_div_ofNat, Nat.floor_natCast]
    rfl
  · obtain ⟨he, h21⟩ := min_len_char n c
    have hb := max_len_bounds n c
    rw [floor_mul07, he]
    by_cases hm : max_len n c ∈ floatLowTens
    · have := mem_floatLowTens hm
      rw [if_pos hm, if_pos hm]
      omega
    · rw [if_neg hm, if_neg hm]
      omega

/-- C2: for every compression level in {20, 30, 50} and every input token
count, `min_len ≤ max_len ≤ 512` and `30 ≤ max_len`. -/
theorem C2_bounds_hold (n c : Nat) (h : c ∈ compressionChoices) :
    min_len n c ≤ max_len n c ∧ max_len n c ≤ 512 ∧ 30 ≤ max_len n c := by
  obtain ⟨h1, h2⟩ := max_len_bounds n c
  obtain ⟨he, h21⟩ := min_len_char n c
  refine ⟨?_, h2, h1⟩
  rw [he]
  by_cases hm : max_len n c ∈ floatLowTens
  · rw [if_pos hm]
    omega
  · rw [if_neg hm]
    omega

/-- Witness for C2 at 1000 input tokens and compression 30. -/
theorem C2_bounds_hold_witness :
    min_len 1000 30 ≤ max_len 1000 30 ∧ max_len 1000 30 ≤ 512 ∧
      30 ≤ max_len 1000 30 :=
  C2_bounds_hold 1000 30 (by decide)

/-- C9 (counterexample): at 450 input tokens and compression 20 we get
`max_len = 90`, and the code's `min_len` is `int(90 * 0.7) = 62` — the
double product `90 * 0.7` is `62.99999999999999…` — while the truncation of
the exact product `0.7 * 90` is 63. -/
theorem C9_counterexample :
    min_len 450 20 = 62 ∧ max_len 450 20 = 90 ∧
    (min_len 450 20 : ℤ) ≠ ⌊(0.7 : ℚ) * (max_len 450 20 : ℚ)⌋ := by
  have h1 : min_len 450 20 = 62 := by decide
  have h2 : max_len 450 20 = 90 := by decide
  refine ⟨h1, h2, ?_⟩
  rw [h1, h2, floor_mul07]
  norm_num

/-- C9 (amended): `min_len` is the truncated IEEE double product
`max_len * 0.7`, always at least 21, so the constant 20 in `max(20, ·)` is
never the larger operand; the truncated double product equals the exact
truncation `⌊0.7 * max_len⌋` except at
`max_len ∈ {90, 170, 180, 330, 340, 350, 360}`, where it is one less. -/
theorem C9_min_len_truncation (n c : Nat) (h : c ∈ compressionChoices) :
    min_len n c = pyIntMulPoint7 (max_len n c) ∧
    21 ≤ min_len n c ∧
    20 < pyIntMulPoint7 (max_len n c) ∧
    (min_len n c : ℤ) =
      ⌊(0.7 : ℚ) * (max_len n c : ℚ)⌋ -
        (if max_len n c ∈ floatLowTens then 1 else 0) := by
  obtain ⟨he, h21⟩ := min_len_char n c
  have hb := max_len_bounds n c
  have hchar := pyIntMulPoint7_char (max_len n c) (by omega) hb.1
  have hml : min_len n c = pyIntMulPoint7 (max_len n c) := by
    unfold min_len
    rw [hchar]
    by_cases hm : max_len n c ∈ floatLowTens
    · have := mem_floatLowTens hm
      rw [if_pos hm]
      omega
    · rw [if_neg hm]
      omega
  refine ⟨hml, h21, by omega, ?_⟩
  rw [floor_mul07, he]
  by_cases hm : max_len n c ∈ floatLowTens
  · have := mem_floatLowTens hm
    rw [if_pos hm, if_pos hm]
    omega
  · rw [if_neg hm, if_neg hm]
    omega

/-- Witness for C9 (amended) at 1000 input tokens and compression 50. -/
theorem C9_min_len_truncation_witness :
    min_len 1000 50 = pyIntMulPoint7 (max_len 1000 50) ∧
      21 ≤ min_len 1000 50 :=
  ⟨(C9_min_len_truncation 1000 50 (by decide)).1,
    (C9_min_len_truncation 1000 50 (by decide)).2.1⟩

/-- C10: for a fixed input token count, `max_len` and `min_len` are monotone
nondecreasing in the compression level over {20, 30, 50}, and for a fixed
compression level they are monotone nondecreasing in the input token
count. -/
theorem C10_monotone (n n' c c' : Nat) (hc : c ∈ compressionChoices)
    (hc' : c' ∈ compressionChoices) (hn : n ≤ n') (hcmp : c ≤ c') :
    max_len n c ≤ max_len n c' ∧ min_len n c ≤ min_len n c' ∧
    max_len n c ≤ max_len n' c ∧ min_len n c ≤ min_len n' c :=
  ⟨max_len_mono le_rfl hcmp, min_len_mono le_rfl hcmp,
    max_len_mono hn le_rfl, min_len_mono hn le_rfl⟩

/-- Witness for C10 at token counts 100 ≤ 400 and compressions 20 ≤ 50. -/
theorem C10_monotone_witness :
    max_len 100 20 ≤ max_len 100 50 ∧ min_len 100 20 ≤ min_len 100 50 ∧
    max_len 100 20 ≤ max_len 400 20 ∧ min_len 100 20 ≤ min_len 400 20 :=
  C10_monotone 100 400 20 50 (by decide) (by decide) (by decide) (by decide)

/-! ## Claims about the detector, the loader and the summarizer guard -/

/-- C3: for every detection oracle and every input text (including the empty
string), `detect_language` returns a member of {en, ru, de}; when the
heuristic raises (`d t = none`) or returns a code outside the supported set,
the result is the fallback `"en"`. -/
theorem C3_detect_language_total (d : String → Option String) (t : String) :
    detect_language d t ∈ SUPPORTED_LANGS ∧
    (d t = none → detect_language d t = "en") ∧
    (∀ l, d t = some l → l ∉ SUPPORTED_LANGS → detect_language d t = "en") := by
  simp only [detect_language]
  rcases hd : d t with _ | l
  · simp [SUPPORTED_LANGS]
  · simp only [Option.getD_some]
    by_cases hl : l ∈ SUPPORTED_LANGS
    · rw [if_pos hl]
      exact ⟨hl, by simp, fun l' hl' hmem => by
        cases hl'
        exact absurd hl hmem⟩
    · rw [if_neg hl]
      refine ⟨by simp [SUPPORTED_LANGS], by simp, fun l' hl' hmem => rfl⟩

/-- Witness for C3: an oracle reporting the unsupported code `"fr"` is
replaced by the fallback `"en"`, which is in the supported set. -/
theorem C3_detect_language_total_witness :
    detect_language (fun _ => some "fr") "bonjour" = "en" ∧
    detect_language (fun _ => some "fr") "bonjour" ∈ SUPPORTED_LANGS :=
  ⟨(C3_detect_language_total (fun _ => some "fr") "bonjour").2.2 "fr" rfl
      (by decide),
    (C3_detect_language_total (fun _ => some "fr") "bonjour").1⟩

/-- C5: on empty or whitespace-only text, `summarize_text` returns the
literal `"Пустой текст"` for every language, compression level and input
budget, with the model and tokenizer never loaded or invoked. -/
theorem C5_empty_shortcircuit (env : ModelEnv) (text lang : String)
    (compression max_input_length : Nat) (h : pyStripEmpty text = true) :
    summarize_text env text lang compression max_input_length =
      ⟨"Пустой текст", false⟩ := by
  simp [summarize_text, h]

/-- Witness for C5 on the whitespace-only text `" \t\n"`. -/
theorem C5_empty_shortcircuit_witness :
    pyStripEmpty " \t\n" = true ∧
    summarize_text ⟨fun _ => [], fun _ _ _ _ => "S"⟩ " \t\n" "ru" 50 1024 =
      ⟨"Пустой текст", false⟩ :=
  ⟨by decide,
    C5_empty_shortcircuit ⟨fun _ => [], fun _ _ _ _ => "S"⟩ " \t\n" "ru" 50 1024
      (by decide)⟩

/-- C6: `load_text` fails with `fileNotFound` exactly when the path is not an
existing regular file — regardless of its extension — and fails with
`unsupportedFormat` exactly when the file exists but its lowercased path ends
in neither `.txt` nor `.pdf`; the existence check runs first. -/
theorem C6_load_text_errors (fs : FileSystem) (p : String) :
    ((∃ q, load_text fs p = .error (.fileNotFound q)) ↔ fs.isFile p = false) ∧
    (load_text fs p = .error .unsupportedFormat ↔
      fs.isFile p = true ∧ strEndsWith (pyLower p) ".txt" = false ∧
        strEndsWith (pyLower p) ".pdf" = false) := by
  cases hf : fs.isFile p
  · simp [load_text, hf]
  · cases ht : strEndsWith (pyLower p) ".txt"
    · cases hp : strEndsWith (pyLower p) ".pdf" <;> simp [load_text, hf, ht, hp]
    · simp [load_text, hf, ht]

/-- A filesystem oracle with no files, for the C6 witness. -/
def fsMissing : FileSystem := ⟨fun _ => false, fun _ => "", fun _ => []⟩

/-- Witness for C6: a nonexistent path fails with `fileNotFound` even though
its extension (`.doc`) is also unsupported. -/
theorem C6_load_text_errors_witness :
    ∃ q, load_text fsMissing "notes.doc" = .error (.fileNotFound q) :=
  (C6_load_text_errors fsMissing "notes.doc").1.mpr rfl

lemma univNewlinesAux_no_cr :
    ∀ (fuel : Nat) (l : List Char), '\r' ∉ l → univNewlinesAux fuel l = l := by
  intro fuel
  induction fuel with
  | zero => intro l _; rfl
  | succ n ih =>
    intro l hl
    cases l with
    | nil => rfl
    | cons c rest =>
      have hc : ¬ c = '\r' := by
        rintro rfl
        exact hl (List.mem_cons_self _ _)
      have hrest : '\r' ∉ rest := fun h => hl (List.mem_cons_of_mem _ h)
      simp only [univNewlinesAux]
      rw [if_neg hc, ih rest hrest]

lemma pyReadText_no_cr (s : String) (h : '\r' ∉ s.data) : pyReadText s = s := by
  unfold pyReadText
  rw [univNewlinesAux_no_cr _ _ h]

/-- A filesystem oracle whose every file holds the bytes of `"a\r\nb"`, for
the C7 counterexample. -/
def fsCrlf : FileSystem := ⟨fun _ => true, fun _ => "a\r\nb", fun _ => []⟩

/-- C7 (counterexample): for an existing `.txt` file whose bytes decode to
`"a\r\nb"`, `load_text` returns `"a\nb"` — text mode collapses the CRLF —
so its result is not the file's byte-for-byte content. -/
theorem C7_counterexample :
    load_text fsCrlf "a.txt" = .ok "a\nb" ∧
    fsCrlf.readBytes "a.txt" = "a\r\nb" ∧
    load_text fsCrlf "a.txt" ≠ .ok (fsCrlf.readBytes "a.txt") := by
  have h2 : strEndsWith (pyLower "a.txt") ".txt" = true := by decide
  have hpy : pyReadText (fsCrlf.readBytes "a.txt") = "a\nb" := by decide
  have hload : load_text fsCrlf "a.txt" = .ok "a\nb" := by
    simp [load_text, fsCrlf, h2] at hpy ⊢
    exact hpy
  refine ⟨hload, rfl, ?_⟩
  rw [hload]
  intro h
  have h' : ("a\nb" : String) = "a\r\nb" := Except.ok.inj h
  exact absurd h' (by decide)

/-- C7 (amended): for an existing file whose lowercased path ends in `.txt`,
`load_text` returns the file's UTF-8 content with Python's universal-newline
translation applied (`"\r\n"` and lone `"\r"` become `"\n"`), and nothing
else changed; in particular, for a file containing no carriage returns the
result is exactly the byte-for-byte content. -/
theorem C7_txt_newline_translated (fs : FileSystem) (p : String)
    (h1 : fs.isFile p = true) (h2 : strEndsWith (pyLower p) ".txt" = true) :
    load_text fs p = .ok (pyReadText (fs.readBytes p)) ∧
    ('\r' ∉ (fs.readBytes p).data → load_text fs p = .ok (fs.readBytes p)) := by
  have hbase : load_text fs p = .ok (pyReadText (fs.readBytes p)) := by
    simp [load_text, h1, h2]
  exact ⟨hbase, fun hcr => by rw [hbase, pyReadText_no_cr _ hcr]⟩

/-- A filesystem oracle whose every file holds `"Hello, мир"` (no carriage
returns), for the C7 and driver witnesses. -/
def fsHello : FileSystem := ⟨fun _ => true, fun _ => "Hello, мир", fun _ => []⟩

/-- Witness for C7 (amended) on the mixed-case path `"Notes.TXT"` with
CR-free content, where the result is the content unchanged. -/
theorem C7_txt_newline_translated_witness :
    load_text fsHello "Notes.TXT" = .ok (fsHello.readBytes "Notes.TXT") :=
  (C7_txt_newline_translated fsHello "Notes.TXT" rfl (by decide)).2 (by decide)

/-! ## Claims about the CLI driver -/

/-- A detection oracle that always reports English, for driver witnesses. -/
def detectEn : String → Option String := fun _ => some "en"

/-- A stub model environment for driver witnesses. -/
def envStub : ModelEnv := ⟨fun _ => [], fun _ _ _ _ => "S"⟩

/-- Arguments carrying the invalid explicit language `fr`, for the C4
counterexample. -/
def argsFr : Args := ⟨"doc.txt", "fr", 30, none⟩

/-- C4 (counterexample): with a readable nonempty `.txt` input but
`--language fr`, the process exits with the argument parser's status 2, not
with status 1 as the claim states: `fr` is outside the `choices` enumeration
of `--language`, so argparse rejects it before `main`'s body runs. -/
theorem C4_counterexample :
    (main fsHello detectEn envStub argsFr).exitCode = 2 ∧
    (main fsHello detectEn envStub argsFr).exitCode ≠ 1 := by
  constructor
  · decide
  · decide

/-- C4 (amended): the driver exits 0 exactly when the arguments pass the
parser's `choices` validation, the input loads, the loaded text is not
empty/whitespace-only and the resolved language is supported — and then a
summary is printed and no error; it exits 1, printing an error and
producing no summary output, when loading fails or the loaded text is empty
or whitespace-only (and in every other non-success case); an explicitly
supplied language outside `{auto, en, ru, de}` — such as `--language fr` —
is instead rejected by the argument parser, which prints its error and
exits with status 2 before any loading happens.  No other exit codes
occur. -/
theorem C4_exit_codes (fs : FileSystem) (d : String → Option String)
    (env : ModelEnv) (a : Args) :
    ((main fs d env a).exitCode = 0 ∨ (main fs d env a).exitCode = 1 ∨
      (main fs d env a).exitCode = 2) ∧
    ((main fs d env a).exitCode = 0 ↔
      ((a.language ∈ languageChoices ∧ a.compression ∈ compressionChoices) ∧
        ∃ t, load_text fs a.input = .ok t ∧ pyStripEmpty t = false ∧
          (if a.language = "auto" then detect_language d t else a.language) ∈
            SUPPORTED_LANGS)) ∧
    ((a.language ∈ languageChoices ∧ a.compression ∈ compressionChoices) →
      (((∃ e, load_text fs a.input = .error e) →
          (main fs d env a).exitCode = 1) ∧
        (∀ t, load_text fs a.input = .ok t → pyStripEmpty t = true →
          (main fs d env a).exitCode = 1))) ∧
    (¬ (a.language ∈ languageChoices ∧ a.compression ∈ compressionChoices) →
      (main fs d env a).exitCode = 2) ∧
    ((main fs d env a).exitCode ≠ 0 →
      (main fs d env a).errorPrinted = true ∧
        (main fs d env a).summaryPrinted = none ∧
        (main fs d env a).written = none) ∧
    ((main fs d env a).exitCode = 0 →
      (main fs d env a).errorPrinted = false ∧
        ∃ s, (main fs d env a).summaryPrinted = some s) := by
  by_cases hv : a.language ∈ languageChoices ∧ a.compression ∈ compressionChoices
  · cases hl : load_text fs a.input with
    | error e =>
      have hm : main fs d env a = ⟨1, none, none, false, true⟩ := by
        simp [main, hv, hl]
      rw [hm]
      refine ⟨by simp, ⟨fun h => by simp at h, ?_⟩,
        fun _ => ⟨fun _ => rfl, fun t ht _ => Except.noConfusion ht⟩,
        fun h => absurd hv h, fun _ => ⟨rfl, rfl, rfl⟩,
        fun h => by simp at h⟩
      rintro ⟨_, t, ht, _⟩
      exact Except.noConfusion ht
    | ok t =>
      cases hemp : pyStripEmpty t
      · by_cases hlang :
          (if a.language = "auto" then detect_language d t else a.language) ∈
            SUPPORTED_LANGS
        · cases ho : a.output with
          | some p =>
            have hm : main fs d env a =
                ⟨0, some ((summarize_text env t
                    (if a.language = "auto" then detect_language d t
                      else a.language) a.compression 1024).output),
                  some (p, (summarize_text env t
                    (if a.language = "auto" then detect_language d t
                      else a.language) a.compression 1024).output),
                  true, false⟩ := by
              simp [main, hv, hl, hemp, hlang, ho]
            rw [hm]
            refine ⟨by simp, ⟨fun _ => ⟨hv, t, rfl, hemp, hlang⟩, fun _ => rfl⟩,
              fun _ => ⟨?_, ?_⟩, fun h => absurd hv h,
              fun h => absurd rfl h, fun _ => ⟨rfl, _, rfl⟩⟩
            · rintro ⟨e, he⟩
              exact Except.noConfusion he
            · intro t' ht' hstrip
              injection ht' with h
              subst h
              rw [hemp] at hstrip
              exact Bool.noConfusion hstrip
          | none =>
            have hm : main fs d env a =
                ⟨0, some ((summarize_text env t
                    (if a.language = "auto" then detect_language d t
                      else a.language) a.compression 1024).output),
                  none, false, false⟩ := by
              simp [main, hv, hl, hemp, hlang, ho]
            rw [hm]
            refine ⟨by simp, ⟨fun _ => ⟨hv, t, rfl, hemp, hlang⟩, fun _ => rfl⟩,
              fun _ => ⟨?_, ?_⟩, fun h => absurd hv h,
              fun h => absurd rfl h, fun _ => ⟨rfl, _, rfl⟩⟩
            · rintro ⟨e, he⟩
              exact Except.noConfusion he
            · intro t' ht' hstrip
              injection ht' with h
              subst h
              rw [hemp] at hstrip
              exact Bool.noConfusion hstrip
        · have hm : main fs d env a = ⟨1, none, none, false, true⟩ := by
            simp [main, hv, hl, hemp, hlang]
          rw [hm]
          refine ⟨by simp, ⟨fun h => by simp at h, ?_⟩,
            fun _ => ⟨?_, fun _ _ _ => rfl⟩, fun h => absurd hv h,
            fun _ => ⟨rfl, rfl, rfl⟩, fun h => by simp at h⟩
          · rintro ⟨_, t', ht', _, hmem⟩
            injection ht' with h
            subst h
            exact absurd hmem hlang
          · rintro ⟨e, he⟩
            exact Except.noConfusion he
      · have hm : main fs d env a = ⟨1, none, none, false, true⟩ := by
          simp [main, hv, hl, hemp]
        rw [hm]
        refine ⟨by simp, ⟨fun h => by simp at h, ?_⟩,
          fun _ => ⟨?_, fun _ _ _ => rfl⟩, fun h => absurd hv h,
          fun _ => ⟨rfl, rfl, rfl⟩, fun h => by simp at h⟩
        · rintro ⟨_, t', ht', hstrip, _⟩
          injection ht' with h
          subst h
          rw [hemp] at hstrip
          exact Bool.noConfusion hstrip
        · rintro ⟨e, he⟩
          exact Except.noConfusion he
  · have hm : main fs d env a = ⟨2, none, none, false, true⟩ := by
      simp [main, hv]
    rw [hm]
    refine ⟨by simp, ⟨fun h => by simp at h, ?_⟩, fun h => absurd h hv,
      fun _ => rfl, fun _ => ⟨rfl, rfl, rfl⟩, fun h => by simp at h⟩
    rintro ⟨hv', _⟩
    exact absurd hv' hv

/-- Witness for C4 (amended): a run on an existing nonempty `.txt` file with
`--language auto` exits with status 0, and a run on a nonexistent input file
exits with status 1. -/
theorem C4_exit_codes_witness :
    (main fsHello detectEn envStub ⟨"a.txt", "auto", 30, none⟩).exitCode = 0 ∧
    (main fsMissing detectEn envStub ⟨"doc.txt", "auto", 30, none⟩).exitCode
      = 1 := by
  constructor
  · apply (C4_exit_codes fsHello detectEn envStub
      ⟨"a.txt", "auto", 30, none⟩).2.1.mpr
    refine ⟨by decide, pyReadText (fsHello.readBytes "a.txt"), ?_,
      by decide, by decide⟩
    have h2 : strEndsWith (pyLower "a.txt") ".txt" = true := by decide
    simp [load_text, fsHello, h2]
  · exact ((C4_exit_codes fsMissing detectEn envStub
        ⟨"doc.txt", "auto", 30, none⟩).2.2.1 (by decide)).1
      ⟨.fileNotFound "doc.txt", rfl⟩

/-- C8: the persist stage writes exactly when an output path was supplied:
the written file then holds, verbatim, the same summary string that was
printed, regardless of the file's previous content, and the confirmation
line is printed; with no output path (or on any failure) nothing is
written. -/
theorem C8_persist (fs : FileSystem) (d : String → Option String)
    (env : ModelEnv) (a : Args) :
    (∀ p, a.output = some p →
      ((main fs d env a).written =
          (main fs d env a).summaryPrinted.map (fun s => (p, s)) ∧
        ((main fs d env a).exitCode = 0 →
          (main fs d env a).confirmPrinted = true))) ∧
    (a.output = none →
      (main fs d env a).written = none ∧
        (main fs d env a).confirmPrinted = false) := by
  by_cases hv : a.language ∈ languageChoices ∧ a.compression ∈ compressionChoices
  · cases hl : load_text fs a.input with
    | error e =>
      have hm : main fs d env a = ⟨1, none, none, false, true⟩ := by
        simp [main, hv, hl]
      rw [hm]
      exact ⟨fun p hp => ⟨rfl, by simp⟩, fun _ => ⟨rfl, rfl⟩⟩
    | ok t =>
      cases hemp : pyStripEmpty t
      · by_cases hlang :
          (if a.language = "auto" then detect_language d t else a.language) ∈
            SUPPORTED_LANGS
        · cases ho : a.output with
          | some p =>
            have hm : main fs d env a =
                ⟨0, some ((summarize_text env t
                    (if a.language = "auto" then detect_language d t
                      else a.language) a.compression 1024).output),
                  some (p, (summarize_text env t
                    (if a.language = "auto" then detect_language d t
                      else a.language) a.compression 1024).output),
                  true, false⟩ := by
              simp [main, hv, hl, hemp, hlang, ho]
            rw [hm]
            refine ⟨fun p' hp' => ?_, fun hn => Option.noConfusion hn⟩
            injection hp' with h
            subst h
            exact ⟨rfl, fun _ => rfl⟩
          | none =>
            have hm : main fs d env a =
                ⟨0, some ((summarize_text env t
                    (if a.language = "auto" then detect_language d t
                      else a.language) a.compression 1024).output),
                  none, false, false⟩ := by
              simp [main, hv, hl, hemp, hlang, ho]
            rw [hm]
            exact ⟨fun p' hp' => Option.noConfusion hp', fun _ => ⟨rfl, rfl⟩⟩
        · have hm : main fs d env a = ⟨1, none, none, false, true⟩ := by
            simp [main, hv, hl, hemp, hlang]
          rw [hm]
          exact ⟨fun p hp => ⟨rfl, by simp⟩, fun _ => ⟨rfl, rfl⟩⟩
      · have hm : main fs d env a = ⟨1, none, none, false, true⟩ := by
          simp [main, hv, hl, hemp]
        rw [hm]
        exact ⟨fun p hp => ⟨rfl, by simp⟩, fun _ => ⟨rfl, rfl⟩⟩
  · have hm : main fs d env a = ⟨2, none, none, false, true⟩ := by
      simp [main, hv]
    rw [hm]
    exact ⟨fun p hp => ⟨rfl, by simp⟩, fun _ => ⟨rfl, rfl⟩⟩

/-- Witness for C8: with `--output out.txt` on a successful run, the file
written at `"out.txt"` holds exactly the printed summary. -/
theorem C8_persist_witness :
    (main fsHello detectEn envStub
        ⟨"a.txt", "auto", 30, some "out.txt"⟩).written =
      (main fsHello detectEn envStub
        ⟨"a.txt", "auto", 30, some "out.txt"⟩).summaryPrinted.map
          (fun s => ("out.txt", s)) :=
  ((C8_persist fsHello detectEn envStub
      ⟨"a.txt", "auto", 30, some "out.txt"⟩).1 "out.txt" rfl).1

end VibeSummarizer
